import Mathlib

/-!
Shallow embedding of `src/boty.py` (a Telegram video-collector bot) and
verification of its specification.

Python strings are modelled as `List Char` (a Python `str` is a sequence of
Unicode code points).  The filesystem is modelled as the list of paths of the
files currently existing in the temporary workspace; `os.remove` is modelled
as removing every occurrence of a path and `os.path.exists` as membership.
Outbound traffic (text replies and the delivered archive) is modelled by the
`Boty.Out` type.  The handlers `start`, `handle_video` and `create_zip` and
the helper `cleanup_files` are translated function by function; the
`try ... except` block of `create_zip` takes an explicit outcome describing
whether the archive construction / delivery raised an exception.
-/

namespace Boty

/-- Python's `str.isalnum` on a single character, i.e. the test
`c.isalnum()` from line 56 of `src/boty.py`.  Python classifies a character
as alphanumeric using the Unicode database.  The model is exact on every
code point below `0x100` (ASCII digits and letters, and the Latin-1
alphanumerics `ª µ º ¼ ½ ¾ ² ³ ¹` and the accented letters `À`–`ÿ` minus the
operators `×` and `÷`); higher code points are mapped to `false`, which no
theorem below depends on (the theorems about non-ASCII behaviour only use
Latin-1 characters, where the model agrees with Python). -/
def pyIsAlnum (c : Char) : Bool :=
  let n := c.toNat
  (48 ≤ n && n ≤ 57) || (65 ≤ n && n ≤ 90) || (97 ≤ n && n ≤ 122) ||
  (n == 0xAA) || (n == 0xB2) || (n == 0xB3) || (n == 0xB5) || (n == 0xB9) ||
  (n == 0xBA) || (0xBC ≤ n && n ≤ 0xBE) ||
  (0xC0 ≤ n && n ≤ 0xFF && n != 0xD7 && n != 0xF7)

/-- Python's notion of whitespace for `str.strip` (the complete list of code
points CPython strips: `\t \n \v \f \r`, the file/group/record/unit
separators, space, NEL, NBSP, and the Unicode space characters). -/
def pyIsSpace (c : Char) : Bool :=
  let n := c.toNat
  (9 ≤ n && n ≤ 13) || (28 ≤ n && n ≤ 32) || (n == 0x85) || (n == 0xA0) ||
  (n == 0x1680) || (0x2000 ≤ n && n ≤ 0x200A) || (n == 0x2028) ||
  (n == 0x2029) || (n == 0x202F) || (n == 0x205F) || (n == 0x3000)

/-- Python's `str.strip()`: remove leading and trailing whitespace. -/
def pyStrip (l : List Char) : List Char :=
  ((l.dropWhile pyIsSpace).reverse.dropWhile pyIsSpace).reverse

/-- The filter condition of the sanitizer's comprehension (line 56 of
`src/boty.py`): `c.isalnum() or c in (' ', '-', '_')`. -/
def keepChar (c : Char) : Bool :=
  pyIsAlnum c || c == ' ' || c == '-' || c == '_'

/-- The caption sanitizer, lines 55–57 of `src/boty.py`:
`"".join(c for c in description if c.isalnum() or c in (' ', '-', '_')).strip().replace(' ', '_') + '.mp4'`. -/
def sanitize (description : List Char) : List Char :=
  (pyStrip (description.filter keepChar)).map
    (fun c => if c == ' ' then '_' else c) ++ (".mp4").data

/-- The decimal digit characters, for rendering Python integers. -/
def digitChar (d : Nat) : Char := Char.ofNat (48 + d)

/-- Python's `str(n)` for a non-negative integer `n` (as interpolated by the
f-strings on lines 61, 72, 85, 127): the usual decimal numeral. -/
def pyStrNat (n : Nat) : List Char :=
  if n = 0 then ['0'] else ((Nat.digits 10 n).map digitChar).reverse

/-- `os.path.join(a, b)` (posix): `b` if `b` is absolute, `a ++ b` if `a` is
empty or ends with a separator, and `a ++ "/" ++ b` otherwise. -/
def pyJoin (a b : List Char) : List Char :=
  if b.head? = some '/' then b
  else if a = [] ∨ a.getLast? = some '/' then a ++ b
  else a ++ '/' :: b

/-- The per-download temporary file path from line 61 of `src/boty.py`:
`os.path.join(TEMP_DIR, f"temp_{update.effective_user.id}_{video_file.file_unique_id}.mp4")`. -/
def tempPath (tempDir : List Char) (uid : Nat) (fuid : List Char) : List Char :=
  pyJoin tempDir (("temp_").data ++ pyStrNat uid ++ '_' :: (fuid ++ (".mp4").data))

/-- The per-user archive path from line 85 of `src/boty.py`:
`os.path.join(TEMP_DIR, f"videos_{update.effective_user.id}.zip")`. -/
def zipPath (tempDir : List Char) (uid : Nat) : List Char :=
  pyJoin tempDir (("videos_").data ++ pyStrNat uid ++ (".zip").data)

/-- The root part of `os.path.splitext(p)` (posix semantics): split off the
final extension of the basename of `p`, unless every character of the
basename before the last dot is itself a dot (dotfiles keep their name). -/
def splitExtRoot (p : List Char) : List Char :=
  let base := (p.reverse.takeWhile (fun c => c != '/')).reverse
  let dir := p.take (p.length - base.length)
  let extRev := base.reverse.takeWhile (fun c => c != '.')
  if extRev.length = base.length then p
  else
    let pre := base.take (base.length - extRev.length - 1)
    if pre.all (fun c => c == '.') then p else dir ++ pre

/-- A pending video record, the dict appended on lines 65–68 of
`src/boty.py`: the temporary storage path and the sanitized target name. -/
structure VideoRecord where
  path : List Char
  name : List Char
deriving DecidableEq, Repr

/-- The per-session mutable state a handler sees: the `videos` entry of
`context.user_data` (`none` when the key is absent) together with the set of
files currently existing in the temporary workspace. -/
structure BotState where
  videos : Option (List VideoRecord)
  fs : List (List Char)
deriving DecidableEq, Repr

/-- An inbound attachment (`update.message.video` / `update.message.document`):
only the identifiers the code reads. -/
structure Attachment where
  file_id : List Char
  file_unique_id : List Char
deriving DecidableEq, Repr

/-- An inbound message: optional video, optional document, optional caption. -/
structure Message where
  video : Option Attachment
  document : Option Attachment
  caption : Option (List Char)
deriving DecidableEq, Repr

/-- Outbound traffic: a text reply, or the delivered archive
(`reply_document`), recorded with the list of entries written into the zip
(source path, archive name, in write order), its caption and its filename. -/
inductive Out where
  | text (msg : List Char)
  | doc (entries : List (List Char × List Char)) (caption : List Char)
      (filename : List Char)
deriving DecidableEq, Repr

/-- Python's `update.message.video or update.message.document` (line 43):
the video if present (a `telegram.Video` object is always truthy), otherwise
the document. -/
def chosenAttachment (m : Message) : Option Attachment :=
  match m.video with
  | some v => some v
  | none => m.document

def apos : Char := Char.ofNat 39

/-- The `/start` instruction text (lines 26–31 of `src/boty.py`). -/
def startText : List Char :=
  ("📹 Video Collector Bot\n\n1. Send me video files with descriptions (captions)\n2. I").data
    ++ [apos] ++ ("ll collect them all\n3. Send /zip when you").data ++ [apos]
    ++ ("re done to get a zip file\n4. All videos will be named according to their descriptions\n\nSend your first video with a description to begin!").data

/-- Reply of line 45 of `src/boty.py`. -/
def warnNoVideo : List Char := ("⚠️ Please send a valid video file!").data

/-- Reply of line 51 of `src/boty.py`. -/
def warnNoCaption : List Char :=
  ("⚠️ Please include a description (caption) with your video!").data

/-- Reply of lines 70–74 of `src/boty.py` (`count` is the running total). -/
def savedText (name : List Char) (count : Nat) : List Char :=
  ("✅ Video saved as: ").data ++ name ++ ("\nTotal videos collected: ").data
    ++ pyStrNat count ++ ("\nSend more videos or /zip when done").data

/-- Reply of line 79 of `src/boty.py`. -/
def warnNoCollected : List Char := ("⚠️ No videos collected yet!").data

/-- Caption of the delivered archive, line 95 of `src/boty.py`. -/
def zipCaption : List Char := ("Here are your videos with descriptive names!").data

/-- Reply of line 103 of `src/boty.py` (`e` is `str(e)`). -/
def errorText (e : List Char) : List Char :=
  ("⚠️ Error creating zip file: ").data ++ e

/-- `os.remove(p)` on the modelled filesystem. -/
def removeFile (p : List Char) (fs : List (List Char)) : List (List Char) :=
  fs.filter (fun q => q != p)

/-- `cleanup_files(videos, zip_path)`, lines 107–120 of `src/boty.py`:
delete each collected temporary file, then the archive (`os.path.exists`
followed by `os.remove`, which on the set model is just removal). -/
def cleanup_files (videos : List VideoRecord) (zp : List Char)
    (fs : List (List Char)) : List (List Char) :=
  removeFile zp (videos.foldl (fun f v => removeFile v.path f) fs)

/-- The `/start` handler, lines 23–34 of `src/boty.py`: reply with the
instructions and set the session's collection to the empty list. -/
def start (st : BotState) : BotState × List Out :=
  ({ st with videos := some [] }, [Out.text startText])

/-- The video ingest handler, lines 36–74 of `src/boty.py`.  `tempDir` is
the process-wide `TEMP_DIR`, `uid` is `update.effective_user.id`.  The
`videos` key is initialized to `[]` when absent (lines 39–40); a missing
attachment or a falsy caption (`None` or the empty string) is rejected with
a warning; otherwise the payload is downloaded to its temporary path, the
record is appended, and a confirmation with the running count is sent. -/
def handle_video (tempDir : List Char) (uid : Nat) (msg : Message)
    (st : BotState) : BotState × List Out :=
  let vids := st.videos.getD []
  match chosenAttachment msg with
  | none => ({ st with videos := some vids }, [Out.text warnNoVideo])
  | some vf =>
    match msg.caption with
    | none => ({ st with videos := some vids }, [Out.text warnNoCaption])
    | some description =>
      if description = [] then
        ({ st with videos := some vids }, [Out.text warnNoCaption])
      else
        let name := sanitize description
        let path := tempPath tempDir uid vf.file_unique_id
        let vids' := vids ++ [{ path := path, name := name }]
        ({ videos := some vids', fs := path :: st.fs },
         [Out.text (savedText name vids'.length)])

/-- Outcome of the `try` block of `create_zip` (lines 87–100 of
`src/boty.py`): either every operation succeeds, or some operation raises an
exception whose `str` is `msg`; `zipCreated` records whether
`zipfile.ZipFile(zip_path, 'w')` had already created the archive file on
disk when the exception was raised. -/
inductive ZipOutcome where
  | ok
  | err (msg : List Char) (zipCreated : Bool)
deriving DecidableEq, Repr

/-- The `/zip` handler, lines 76–105 of `src/boty.py`.  With an empty (or
uninitialized) collection it only warns.  Otherwise it derives the external
archive filename from the first record via `os.path.splitext`, writes every
record into the archive and delivers it (or, on the `err` outcome, reports
the exception), and in both cases runs `cleanup_files` and clears the
collection. -/
def create_zip (tempDir : List Char) (uid : Nat) (st : BotState)
    (outcome : ZipOutcome) : BotState × List Out :=
  match st.videos with
  | none => (st, [Out.text warnNoCollected])
  | some [] => (st, [Out.text warnNoCollected])
  | some (v0 :: rest) =>
    let vs := v0 :: rest
    let zipFilename := splitExtRoot v0.name ++ (".zip").data
    let zp := zipPath tempDir uid
    match outcome with
    | ZipOutcome.ok =>
      let entries := vs.map (fun v => (v.path, v.name))
      let fs2 := cleanup_files vs zp (zp :: st.fs)
      ({ videos := some [], fs := fs2 },
       [Out.doc entries zipCaption zipFilename])
    | ZipOutcome.err e zw =>
      let fs2 := cleanup_files vs zp (if zw then zp :: st.fs else st.fs)
      ({ videos := some [], fs := fs2 }, [Out.text (errorText e)])

/-- The record `handle_video` appends for a valid message. -/
def mkRecord (tempDir : List Char) (uid : Nat) (m : Message) : VideoRecord :=
  { path := tempPath tempDir uid
      ((chosenAttachment m).map Attachment.file_unique_id |>.getD []),
    name := sanitize (m.caption.getD []) }

/-- A message `handle_video` accepts: it has a video-like attachment and a
non-empty caption. -/
def validMsg (m : Message) : Bool :=
  (chosenAttachment m).isSome && m.caption.getD [] != []

/-- Ingest a sequence of messages (repeated invocations of `handle_video`
for the same session). -/
def ingestAll (tempDir : List Char) (uid : Nat) (msgs : List Message)
    (st : BotState) : BotState :=
  msgs.foldl (fun s m => (handle_video tempDir uid m s).1) st

/-- The characters the specification allows in a sanitized base name:
`[A-Za-z0-9 _-]`. -/
def specSafeChar (c : Char) : Bool :=
  let n := c.toNat
  (48 ≤ n && n ≤ 57) || (65 ≤ n && n ≤ 90) || (97 ≤ n && n ≤ 122) ||
  (c == ' ') || (c == '-') || (c == '_')

/-- Whether an outbound item is a delivered document (archive). -/
def isDocOut (o : Out) : Bool :=
  match o with
  | Out.doc _ _ _ => true
  | Out.text _ => false

/-! ### General helper lemmas -/

lemma char_eq_iff_toNat_eq (c d : Char) : c = d ↔ c.toNat = d.toNat := by
  constructor
  · intro h
    rw [h]
  · intro h
    rw [← Char.ofNat_toNat c, ← Char.ofNat_toNat d, h]

lemma mem_of_head? (l : List Char) (c : Char) (h : l.head? = some c) : c ∈ l := by
  cases l with
  | nil => simp at h
  | cons a t =>
    simp at h
    simp [h]

lemma dropWhile_eq_self_of_head (p : Char → Bool) (l : List Char)
    (h : ∀ c, l.head? = some c → p c = false) : l.dropWhile p = l := by
  cases l with
  | nil => rfl
  | cons a t => simp [List.dropWhile_cons, h a rfl]

lemma mem_of_mem_pyStrip (c : Char) (l : List Char) (h : c ∈ pyStrip l) : c ∈ l := by
  unfold pyStrip at h
  rw [List.mem_reverse] at h
  have h1 := (List.dropWhile_suffix pyIsSpace).subset h
  rw [List.mem_reverse] at h1
  exact (List.dropWhile_suffix pyIsSpace).subset h1

lemma takeWhile_append_of_all (p : Char → Bool) (l1 l2 : List Char)
    (h : ∀ a ∈ l1, p a = true) : (l1 ++ l2).takeWhile p = l1 ++ l2.takeWhile p := by
  induction l1 with
  | nil => simp
  | cons a t ih =>
    rw [List.cons_append, List.takeWhile_cons_of_pos (h a (by simp)), ih]
    · rfl
    · intro x hx
      exact h x (by simp [hx])

lemma takeWhile_eq_self_of_all (p : Char → Bool) (l : List Char)
    (h : ∀ a ∈ l, p a = true) : l.takeWhile p = l := by
  induction l with
  | nil => rfl
  | cons a t ih =>
    rw [List.takeWhile_cons_of_pos (h a (by simp)), ih]
    intro x hx
    exact h x (by simp [hx])

lemma append_underscore_inj (a : List Char) : ∀ (b x y : List Char),
    (∀ c ∈ a, c ≠ '_') → (∀ c ∈ b, c ≠ '_') →
    a ++ '_' :: x = b ++ '_' :: y → a = b ∧ x = y := by
  induction a with
  | nil =>
    intro b x y _ hb h
    cases b with
    | nil =>
      simp at h
      simp [h]
    | cons c t =>
      simp at h
      exact absurd h.1.symm (hb c (by simp))
  | cons c t ih =>
    intro b x y ha hb h
    cases b with
    | nil =>
      simp at h
      exact absurd h.1 (ha c (by simp))
    | cons d u =>
      simp only [List.cons_append, List.cons.injEq] at h
      obtain ⟨rfl, htail⟩ := h
      obtain ⟨h1, h2⟩ := ih u x y (fun z hz => ha z (by simp [hz]))
        (fun z hz => hb z (by simp [hz])) htail
      exact ⟨by rw [h1], h2⟩

/-! ### Decimal numerals -/

lemma digitChar_inj10 : ∀ d1, d1 < 10 → ∀ d2, d2 < 10 →
    digitChar d1 = digitChar d2 → d1 = d2 := by decide

lemma digitChar_ne_underscore : ∀ d, d < 10 → digitChar d ≠ '_' := by decide

lemma map_digitChar_inj (l1 : List Nat) : ∀ (l2 : List Nat),
    (∀ d ∈ l1, d < 10) → (∀ d ∈ l2, d < 10) →
    l1.map digitChar = l2.map digitChar → l1 = l2 := by
  induction l1 with
  | nil =>
    intro l2 _ _ h
    cases l2 with
    | nil => rfl
    | cons d u => simp at h
  | cons c t ih =>
    intro l2 h1 h2 h
    cases l2 with
    | nil => simp at h
    | cons d u =>
      simp only [List.map_cons, List.cons.injEq] at h
      have hc : c = d := digitChar_inj10 c (h1 c (by simp)) d (h2 d (by simp)) h.1
      have ht : t = u := ih u (fun z hz => h1 z (by simp [hz]))
        (fun z hz => h2 z (by simp [hz])) h.2
      rw [hc, ht]

lemma digits_all_lt_10 (n : Nat) : ∀ d ∈ Nat.digits 10 n, d < 10 := by
  intro d hd
  exact Nat.digits_lt_base (by norm_num) hd

lemma pyStrNat_inj (m n : Nat) (h : pyStrNat m = pyStrNat n) : m = n := by
  unfold pyStrNat at h
  by_cases hm : m = 0 <;> by_cases hn : n = 0
  · rw [hm, hn]
  · rw [if_pos hm, if_neg hn] at h
    have h' : (Nat.digits 10 n).map digitChar = ['0'] := by
      have := congrArg List.reverse h
      simpa using this.symm
    have hd : Nat.digits 10 n = [0] := by
      cases hds : Nat.digits 10 n with
      | nil => rw [hds] at h'; simp at h'
      | cons d u =>
        rw [hds] at h'
        cases u with
        | nil =>
          simp only [List.map_cons, List.map_nil, List.cons.injEq, and_true] at h'
          have : d < 10 := digits_all_lt_10 n d (by rw [hds]; simp)
          have : d = 0 := digitChar_inj10 d this 0 (by norm_num) h'
          rw [this]
        | cons e v => simp at h'
    have := Nat.ofDigits_digits 10 n
    rw [hd] at this
    simp at this
    exact absurd this.symm hn
  · rw [if_neg hm, if_pos hn] at h
    have h' : (Nat.digits 10 m).map digitChar = ['0'] := by
      have := congrArg List.reverse h
      simpa using this
    have hd : Nat.digits 10 m = [0] := by
      cases hds : Nat.digits 10 m with
      | nil => rw [hds] at h'; simp at h'
      | cons d u =>
        rw [hds] at h'
        cases u with
        | nil =>
          simp only [List.map_cons, List.map_nil, List.cons.injEq, and_true] at h'
          have : d < 10 := digits_all_lt_10 m d (by rw [hds]; simp)
          have : d = 0 := digitChar_inj10 d this 0 (by norm_num) h'
          rw [this]
        | cons e v => simp at h'
    have := Nat.ofDigits_digits 10 m
    rw [hd] at this
    simp at this
    exact absurd this.symm hm
  · rw [if_neg hm, if_neg hn] at h
    have h' := List.reverse_injective h
    have := map_digitChar_inj _ _ (digits_all_lt_10 m) (digits_all_lt_10 n) h'
    have h2 := Nat.ofDigits_digits 10 m
    rw [this, Nat.ofDigits_digits 10 n] at h2
    exact h2.symm

lemma pyStrNat_ne_underscore (n : Nat) : ∀ c ∈ pyStrNat n, c ≠ '_' := by
  intro c hc
  unfold pyStrNat at hc
  by_cases hn : n = 0
  · rw [if_pos hn] at hc
    simp at hc
    rw [hc]
    decide
  · rw [if_neg hn, List.mem_reverse, List.mem_map] at hc
    obtain ⟨d, hd, rfl⟩ := hc
    exact digitChar_ne_underscore d (digits_all_lt_10 n d hd)

/-! ### Path lemmas -/

lemma pyJoin_cancel (a b1 b2 : List Char) (h1 : b1.head? ≠ some '/')
    (h2 : b2.head? ≠ some '/') (h : pyJoin a b1 = pyJoin a b2) : b1 = b2 := by
  unfold pyJoin at h
  rw [if_neg h1, if_neg h2] at h
  by_cases ha : a = [] ∨ a.getLast? = some '/'
  · rw [if_pos ha, if_pos ha] at h
    exact List.append_cancel_left h
  · rw [if_neg ha, if_neg ha] at h
    have := List.append_cancel_left h
    simpa using this

/-! ### Cleanup lemmas -/

lemma foldl_removeFile_eq_filter (vs : List VideoRecord) : ∀ (fs : List (List Char)),
    vs.foldl (fun f v => removeFile v.path f) fs =
      fs.filter (fun q => vs.all (fun v => q != v.path)) := by
  induction vs with
  | nil =>
    intro fs
    simp [List.all_nil]
  | cons v t ih =>
    intro fs
    rw [List.foldl_cons, ih, removeFile, List.filter_filter]
    apply List.filter_congr
    intro q _
    simp [List.all_cons, Bool.and_comm]

lemma cleanup_files_eq_filter (vs : List VideoRecord) (zp : List Char)
    (fs : List (List Char)) :
    cleanup_files vs zp fs =
      fs.filter (fun q => (q != zp) && vs.all (fun v => q != v.path)) := by
  rw [cleanup_files, foldl_removeFile_eq_filter, removeFile, List.filter_filter]

lemma cleanup_files_cons_zp (vs : List VideoRecord) (zp : List Char)
    (fs : List (List Char)) :
    cleanup_files vs zp (zp :: fs) = cleanup_files vs zp fs := by
  rw [cleanup_files_eq_filter, cleanup_files_eq_filter]
  rw [List.filter_cons_of_neg]
  simp

lemma cleanup_files_removes_zp (vs : List VideoRecord) (zp : List Char)
    (fs : List (List Char)) : zp ∉ cleanup_files vs zp fs := by
  rw [cleanup_files_eq_filter]
  intro h
  have := (List.mem_filter.mp h).2
  simp at this

lemma cleanup_files_removes_paths (vs : List VideoRecord) (zp : List Char)
    (fs : List (List Char)) : ∀ v ∈ vs, v.path ∉ cleanup_files vs zp fs := by
  intro v hv h
  rw [cleanup_files_eq_filter] at h
  have := (List.mem_filter.mp h).2
  rw [Bool.and_eq_true, List.all_eq_true] at this
  have := this.2 v hv
  simp at this

/-! ### Character class lemmas -/

lemma pyIsAlnum_iff (c : Char) : pyIsAlnum c = true ↔
    (48 ≤ c.toNat ∧ c.toNat ≤ 57) ∨ (65 ≤ c.toNat ∧ c.toNat ≤ 90) ∨
    (97 ≤ c.toNat ∧ c.toNat ≤ 122) ∨ c.toNat = 0xAA ∨ c.toNat = 0xB2 ∨
    c.toNat = 0xB3 ∨ c.toNat = 0xB5 ∨ c.toNat = 0xB9 ∨ c.toNat = 0xBA ∨
    (0xBC ≤ c.toNat ∧ c.toNat ≤ 0xBE) ∨
    (0xC0 ≤ c.toNat ∧ c.toNat ≤ 0xFF ∧ c.toNat ≠ 0xD7 ∧ c.toNat ≠ 0xF7) := by
  simp only [pyIsAlnum, Bool.or_eq_true, Bool.and_eq_true, decide_eq_true_eq,
    beq_iff_eq, bne_iff_ne]
  omega

lemma pyIsSpace_iff (c : Char) : pyIsSpace c = true ↔
    (9 ≤ c.toNat ∧ c.toNat ≤ 13) ∨ (28 ≤ c.toNat ∧ c.toNat ≤ 32) ∨
    c.toNat = 0x85 ∨ c.toNat = 0xA0 ∨ c.toNat = 0x1680 ∨
    (0x2000 ≤ c.toNat ∧ c.toNat ≤ 0x200A) ∨ c.toNat = 0x2028 ∨
    c.toNat = 0x2029 ∨ c.toNat = 0x202F ∨ c.toNat = 0x205F ∨
    c.toNat = 0x3000 := by
  simp only [pyIsSpace, Bool.or_eq_true, Bool.and_eq_true, decide_eq_true_eq,
    beq_iff_eq]
  omega

lemma specSafeChar_iff (c : Char) : specSafeChar c = true ↔
    (48 ≤ c.toNat ∧ c.toNat ≤ 57) ∨ (65 ≤ c.toNat ∧ c.toNat ≤ 90) ∨
    (97 ≤ c.toNat ∧ c.toNat ≤ 122) ∨ c.toNat = 32 ∨ c.toNat = 45 ∨
    c.toNat = 95 := by
  simp only [specSafeChar, Bool.or_eq_true, Bool.and_eq_true, decide_eq_true_eq,
    beq_iff_eq, char_eq_iff_toNat_eq, show Char.toNat ' ' = 32 by decide,
    show Char.toNat '-' = 45 by decide, show Char.toNat '_' = 95 by decide]
  omega

lemma keepChar_iff (c : Char) : keepChar c = true ↔
    pyIsAlnum c = true ∨ c.toNat = 32 ∨ c.toNat = 45 ∨ c.toNat = 95 := by
  simp only [keepChar, Bool.or_eq_true, beq_iff_eq, char_eq_iff_toNat_eq,
    show Char.toNat ' ' = 32 by decide, show Char.toNat '-' = 45 by decide,
    show Char.toNat '_' = 95 by decide]
  tauto

lemma keep_of_specSafe (c : Char) (h : specSafeChar c = true) : keepChar c = true := by
  rw [keepChar_iff, pyIsAlnum_iff]
  rw [specSafeChar_iff] at h
  omega

lemma specSafe_of_ascii_keep (c : Char) (hc : c.toNat < 128)
    (h : keepChar c = true) :
    specSafeChar (if c == ' ' then '_' else c) = true := by
  by_cases hs : c = ' '
  · rw [if_pos (by simp [hs])]
    decide
  · rw [if_neg (by simp [hs])]
    rw [specSafeChar_iff]
    rw [keepChar_iff, pyIsAlnum_iff] at h
    omega

lemma specSafe_not_space (c : Char) (h : specSafeChar c = true)
    (hne : c.toNat ≠ 32) : pyIsSpace c = false := by
  cases hps : pyIsSpace c with
  | false => rfl
  | true =>
    exfalso
    rw [pyIsSpace_iff] at hps
    rw [specSafeChar_iff] at h
    omega

/-! ### Claim theorems -/

/-- C10: for every session state, the `/start` command sets the session's
collection to the empty list and performs no file deletions: the filesystem
is left exactly as it was (temporary files of previously ingested records
remain on disk), and the only effect besides the instruction reply is the
in-memory reset of the collection. -/
theorem start_resets_collection_only (st : BotState) :
    (start st).1.videos = some [] ∧ (start st).1.fs = st.fs ∧
    (start st).2 = [Out.text startText] :=
  ⟨rfl, rfl, rfl⟩

/-- C9: when the collection key has never been initialized (`videos` absent
from `user_data`), `handle_video` does not fail: it behaves exactly — same
resulting state, same replies — as it does on an initialized empty
collection. -/
theorem handle_video_uninitialized_eq_empty (tempDir : List Char) (uid : Nat)
    (msg : Message) (fs : List (List Char)) :
    handle_video tempDir uid msg { videos := none, fs := fs } =
      handle_video tempDir uid msg { videos := some [], fs := fs } := by
  unfold handle_video
  cases hv : chosenAttachment msg with
  | none => rfl
  | some vf =>
    cases hc : msg.caption with
    | none => rfl
    | some d =>
      by_cases hd : d = [] <;> simp [hd]

/-- C6: triggering `create_zip` while the session's collection is empty (or
was never initialized) replies with a user-visible warning, performs no
filesystem writes, and leaves the whole state — in particular the (still
empty) collection — unchanged. -/
theorem create_zip_empty_collection (tempDir : List Char) (uid : Nat)
    (st : BotState) (outcome : ZipOutcome)
    (h : st.videos = none ∨ st.videos = some []) :
    create_zip tempDir uid st outcome = (st, [Out.text warnNoCollected]) := by
  rcases h with h | h <;> simp [create_zip, h]

theorem create_zip_empty_collection_witness :
    create_zip [] 0 { videos := some [], fs := [] } ZipOutcome.ok =
      ({ videos := some [], fs := [] }, [Out.text warnNoCollected]) :=
  create_zip_empty_collection [] 0 { videos := some [], fs := [] }
    ZipOutcome.ok (Or.inr rfl)

/-- C1: for every collection state and every exception raised inside the
`try` block of `create_zip` (archive construction or delivery), the
exception is caught and reported with a reply containing the error's text,
the collection ends up the empty list, none of the session's collected
temporary source files nor the session's zip file remain on disk, and the
resulting state is exactly the state a successful build would have
produced. -/
theorem create_zip_error_cleanup (tempDir : List Char) (uid : Nat)
    (st : BotState) (vs : List VideoRecord) (e : List Char) (zw : Bool)
    (hv : st.videos = some vs) (hne : vs ≠ []) :
    (create_zip tempDir uid st (ZipOutcome.err e zw)).1 =
      (create_zip tempDir uid st ZipOutcome.ok).1 ∧
    (create_zip tempDir uid st (ZipOutcome.err e zw)).1.videos = some [] ∧
    (∃ pre, (create_zip tempDir uid st (ZipOutcome.err e zw)).2 =
      [Out.text (pre ++ e)]) ∧
    (∀ v ∈ vs, v.path ∉ (create_zip tempDir uid st (ZipOutcome.err e zw)).1.fs) ∧
    zipPath tempDir uid ∉ (create_zip tempDir uid st (ZipOutcome.err e zw)).1.fs := by
  cases vs with
  | nil => exact absurd rfl hne
  | cons v0 rest =>
    refine ⟨?_, ?_, ?_, ?_, ?_⟩
    · simp only [create_zip, hv]
      cases zw with
      | true => rfl
      | false =>
        simp [cleanup_files_cons_zp]
    · simp [create_zip, hv]
    · refine ⟨("⚠️ Error creating zip file: ").data, ?_⟩
      simp [create_zip, hv, errorText]
    · intro v hvmem
      simp only [create_zip, hv]
      exact cleanup_files_removes_paths _ _ _ v hvmem
    · simp only [create_zip, hv]
      exact cleanup_files_removes_zp _ _ _

theorem create_zip_error_cleanup_witness :
    ((create_zip [] 0 ⟨some [⟨("p").data, ("a.mp4").data⟩], [("p").data]⟩
        (ZipOutcome.err (("boom").data) false)).1 =
      (create_zip [] 0 ⟨some [⟨("p").data, ("a.mp4").data⟩], [("p").data]⟩
        ZipOutcome.ok).1) ∧
    (create_zip [] 0 ⟨some [⟨("p").data, ("a.mp4").data⟩], [("p").data]⟩
        (ZipOutcome.err (("boom").data) false)).1.videos = some [] ∧
    (∃ pre, (create_zip [] 0 ⟨some [⟨("p").data, ("a.mp4").data⟩], [("p").data]⟩
        (ZipOutcome.err (("boom").data) false)).2 = [Out.text (pre ++ ("boom").data)]) ∧
    (∀ v ∈ [(⟨("p").data, ("a.mp4").data⟩ : VideoRecord)],
      v.path ∉ (create_zip [] 0 ⟨some [⟨("p").data, ("a.mp4").data⟩], [("p").data]⟩
        (ZipOutcome.err (("boom").data) false)).1.fs) ∧
    zipPath [] 0 ∉ (create_zip [] 0 ⟨some [⟨("p").data, ("a.mp4").data⟩], [("p").data]⟩
        (ZipOutcome.err (("boom").data) false)).1.fs :=
  create_zip_error_cleanup [] 0 ⟨some [⟨("p").data, ("a.mp4").data⟩], [("p").data]⟩
    [⟨("p").data, ("a.mp4").data⟩] (("boom").data) false rfl (by simp)

/-- C5: the temporary-file path construction of `handle_video` is injective
across distinct user identifiers: two sessions with different user ids never
obtain the same temporary file path, whatever the attachment unique ids. -/
theorem tempPath_injective_across_users (tempDir : List Char) (u1 u2 : Nat)
    (f1 f2 : List Char) (hne : u1 ≠ u2) :
    tempPath tempDir u1 f1 ≠ tempPath tempDir u2 f2 := by
  intro heq
  unfold tempPath at heq
  have hname := pyJoin_cancel tempDir _ _ (by simp [show ("temp_").data =
    ['t', 'e', 'm', 'p', '_'] from rfl]) (by simp [show ("temp_").data =
    ['t', 'e', 'm', 'p', '_'] from rfl]) heq
  rw [show ("temp_").data = ['t', 'e', 'm', 'p', '_'] from rfl] at hname
  simp only [List.append_assoc] at hname
  have hcancel := List.append_cancel_left hname
  obtain ⟨h1, _⟩ := append_underscore_inj _ _ _ _
    (pyStrNat_ne_underscore u1) (pyStrNat_ne_underscore u2) hcancel
  exact hne (pyStrNat_inj u1 u2 h1)

theorem tempPath_injective_across_users_witness :
    tempPath [] 0 [] ≠ tempPath [] 1 [] :=
  tempPath_injective_across_users [] 0 1 [] [] (by decide)

/-- C3 (counterexample): the sanitizer's output is not always confined to
`[A-Za-z0-9 _-]` before the extension.  Python's `str.isalnum` is
Unicode-aware, so the caption `"é"` (U+00E9, alphanumeric for Python)
sanitizes to `"é.mp4"`, whose base contains a character outside the claimed
set. -/
theorem sanitize_unicode_counterexample :
    sanitize (("é").data) = 'é' :: (".mp4").data ∧
    ¬ (∀ c ∈ (sanitize (("é").data)).take ((sanitize (("é").data)).length - 4),
        specSafeChar c = true) := by decide

/-- C3 (amended): for every caption made of ASCII characters, the
sanitizer's output consists, before the appended extension, only of
characters in `[A-Za-z0-9 _-]`, and the whole output ends with the fixed
extension `".mp4"` (non-ASCII alphanumerics such as accented letters are
preserved by the sanitizer, so the character restriction needs the ASCII
hypothesis; the extension claim needs none). -/
theorem sanitize_ascii_spec (d : List Char) (h : ∀ c ∈ d, c.toNat < 128) :
    ∃ base, sanitize d = base ++ (".mp4").data ∧
      ∀ c ∈ base, specSafeChar c = true := by
  refine ⟨(pyStrip (d.filter keepChar)).map (fun c => if c == ' ' then '_' else c),
    rfl, ?_⟩
  intro c hc
  rw [List.mem_map] at hc
  obtain ⟨x, hx, rfl⟩ := hc
  have hx2 := mem_of_mem_pyStrip x _ hx
  exact specSafe_of_ascii_keep x (h x (List.mem_filter.mp hx2).1)
    (List.mem_filter.mp hx2).2

theorem sanitize_ascii_spec_witness :
    ∃ base, sanitize (("My Trip (2024)").data) = base ++ (".mp4").data ∧
      ∀ c ∈ base, specSafeChar c = true :=
  sanitize_ascii_spec (("My Trip (2024)").data) (by decide)

/-- C4 (counterexample): on captions made only of the allowed characters
the sanitizer is not the pure spaces-to-underscores transform: the
`.strip()` call removes leading/trailing spaces first.  The caption `" a "`
(all characters in `[A-Za-z0-9 _-]`) yields `"a.mp4"`, not `"_a_.mp4"`. -/
theorem sanitize_identity_counterexample :
    (∀ c ∈ ((" a ")).data, specSafeChar c = true) ∧
    sanitize ((" a ").data) ≠
      ((" a ").data).map (fun c => if c == ' ' then '_' else c) ++ (".mp4").data := by
  decide

/-- C4 (amended): for every caption whose characters all lie in
`[A-Za-z0-9 _-]` and which neither starts nor ends with a space (so that
`.strip()` is the identity), the sanitizer returns exactly the caption with
each space replaced by an underscore and `".mp4"` appended. -/
theorem sanitize_safe_chars_identity (d : List Char)
    (h : ∀ c ∈ d, specSafeChar c = true)
    (hh : d.head? ≠ some ' ') (hl : d.getLast? ≠ some ' ') :
    sanitize d = d.map (fun c => if c == ' ' then '_' else c) ++ (".mp4").data := by
  have hfilter : d.filter keepChar = d :=
    List.filter_eq_self.mpr (fun c hc => keep_of_specSafe c (h c hc))
  have h1 : d.dropWhile pyIsSpace = d := by
    apply dropWhile_eq_self_of_head
    intro c hc
    refine specSafe_not_space c (h c (mem_of_head? d c hc)) ?_
    intro h32
    have hcsp : c = ' ' := (char_eq_iff_toNat_eq c ' ').mpr (by rw [h32]; decide)
    rw [hcsp] at hc
    exact hh hc
  have h2 : d.reverse.dropWhile pyIsSpace = d.reverse := by
    apply dropWhile_eq_self_of_head
    intro c hc
    have hcd : c ∈ d := List.mem_reverse.mp (mem_of_head? _ c hc)
    refine specSafe_not_space c (h c hcd) ?_
    intro h32
    have hcsp : c = ' ' := (char_eq_iff_toNat_eq c ' ').mpr (by rw [h32]; decide)
    rw [hcsp, List.head?_reverse] at hc
    exact hl hc
  have hstrip : pyStrip d = d := by
    unfold pyStrip
    rw [h1, h2, List.reverse_reverse]
  rw [sanitize, hfilter, hstrip]

theorem sanitize_safe_chars_identity_witness :
    sanitize (("My Trip").data) =
      (("My Trip").data).map (fun c => if c == ' ' then '_' else c) ++ (".mp4").data :=
  sanitize_safe_chars_identity (("My Trip").data) (by decide) (by decide) (by decide)

lemma splitExtRoot_append_mp4 (b : List Char) (hb : b ≠ [])
    (hdot : ∀ c ∈ b, c ≠ '.') (hslash : ∀ c ∈ b, c ≠ '/') :
    splitExtRoot (b ++ (".mp4").data) = b := by
  have hrev : (b ++ (".mp4").data).reverse = ['4', 'p', 'm', '.'] ++ b.reverse := by
    rw [List.reverse_append]
    rw [show ((".mp4").data).reverse = ['4', 'p', 'm', '.'] from rfl]
  have hbase : ((b ++ (".mp4").data).reverse.takeWhile (fun c => c != '/')).reverse
      = b ++ (".mp4").data := by
    rw [hrev, takeWhile_append_of_all _ _ _ (by decide),
      takeWhile_eq_self_of_all _ _ (fun a ha => bne_iff_ne.mpr
        (hslash a (List.mem_reverse.mp ha))), ← hrev, List.reverse_reverse]
  have hext : (b ++ (".mp4").data).reverse.takeWhile (fun c => c != '.')
      = ['4', 'p', 'm'] := by
    rw [hrev]
    simp only [List.cons_append]
    rw [List.takeWhile_cons_of_pos (by decide), List.takeWhile_cons_of_pos (by decide),
      List.takeWhile_cons_of_pos (by decide)]
    simp [List.takeWhile_cons]
  have hlenp : (b ++ (".mp4").data).length = b.length + 4 := by
    rw [List.length_append]
    rfl
  have hlen3 : (['4', 'p', 'm'] : List Char).length = 3 := rfl
  obtain ⟨c, t, rfl⟩ : ∃ c t, b = c :: t := by
    cases b with
    | nil => exact absurd rfl hb
    | cons c t => exact ⟨c, t, rfl⟩
  have hall : ((c :: t).all (fun x => x == '.')) = false := by
    rw [List.all_cons, beq_eq_false_iff_ne.mpr (hdot c (by simp)), Bool.false_and]
  simp only [splitExtRoot]
  rw [hbase, hext, hlenp, hlen3]
  rw [if_neg (by omega : ¬ (3 : Nat) = (c :: t).length + 4)]
  rw [show (c :: t).length + 4 - 3 - 1 = (c :: t).length from by omega]
  rw [List.take_left]
  rw [if_neg (by simp [hall])]
  rw [Nat.sub_self, List.take_zero, List.nil_append]

/-- C8: on every successful build from a non-empty collection, the
externally delivered archive filename is the first collected record's target
name with its extension removed (in the `os.path.splitext` sense) and
`".zip"` appended; for a sanitizer-produced target name `b ++ ".mp4"` with a
non-empty, dot-free, slash-free base `b` — which is the shape of every name
`handle_video` stores — this is exactly the name with the `".mp4"` suffix
replaced by `".zip"`. -/
theorem create_zip_filename_from_first (tempDir : List Char) (uid : Nat)
    (st : BotState) (v0 : VideoRecord) (rest : List VideoRecord)
    (hv : st.videos = some (v0 :: rest)) :
    (create_zip tempDir uid st ZipOutcome.ok).2 =
      [Out.doc ((v0 :: rest).map (fun v => (v.path, v.name))) zipCaption
        (splitExtRoot v0.name ++ (".zip").data)] ∧
    (∀ b, v0.name = b ++ (".mp4").data → b ≠ [] → (∀ c ∈ b, c ≠ '.') →
      (∀ c ∈ b, c ≠ '/') →
      splitExtRoot v0.name ++ (".zip").data = b ++ (".zip").data) := by
  constructor
  · simp [create_zip, hv]
  · intro b hname hb hdot hslash
    rw [hname, splitExtRoot_append_mp4 b hb hdot hslash]

theorem create_zip_filename_from_first_witness :
    ((create_zip [] 0 ⟨some [⟨("p").data, ("a.mp4").data⟩], []⟩ ZipOutcome.ok).2 =
      [Out.doc [(("p").data, ("a.mp4").data)] zipCaption
        (splitExtRoot (("a.mp4").data) ++ (".zip").data)]) ∧
    splitExtRoot (("a.mp4").data) ++ (".zip").data = ("a").data ++ (".zip").data := by
  have h := create_zip_filename_from_first [] 0
    ⟨some [⟨("p").data, ("a.mp4").data⟩], []⟩ ⟨("p").data, ("a.mp4").data⟩ [] rfl
  exact ⟨h.1, h.2 (("a").data) rfl (by decide) (by decide) (by decide)⟩

/-- C7: for every inbound message, `handle_video` (a) fails with a
user-visible reply and leaves the collection contents and the filesystem
unchanged when the message carries no video-like attachment, (b) likewise
fails with a reply and no state change when the caption is absent or empty,
and (c) when both are present appends exactly one record to the collection,
downloads one file, and replies with a confirmation containing the running
count.  (In cases (a) and (b) the collection is reported as
`some (st.videos.getD [])`: its contents are untouched, though an absent
`videos` key is initialized to the empty list first — see C9.) -/
theorem handle_video_contract (tempDir : List Char) (uid : Nat) (msg : Message)
    (st : BotState) :
    (chosenAttachment msg = none →
      (handle_video tempDir uid msg st).1.fs = st.fs ∧
      (handle_video tempDir uid msg st).1.videos = some (st.videos.getD []) ∧
      (handle_video tempDir uid msg st).2 = [Out.text warnNoVideo]) ∧
    ((chosenAttachment msg).isSome = true → msg.caption.getD [] = [] →
      (handle_video tempDir uid msg st).1.fs = st.fs ∧
      (handle_video tempDir uid msg st).1.videos = some (st.videos.getD []) ∧
      (handle_video tempDir uid msg st).2 = [Out.text warnNoCaption]) ∧
    (∀ vf d, chosenAttachment msg = some vf → msg.caption = some d → d ≠ [] →
      (handle_video tempDir uid msg st).1.videos =
        some (st.videos.getD [] ++
          [⟨tempPath tempDir uid vf.file_unique_id, sanitize d⟩]) ∧
      (handle_video tempDir uid msg st).1.fs =
        tempPath tempDir uid vf.file_unique_id :: st.fs ∧
      ∃ s t, (handle_video tempDir uid msg st).2 =
        [Out.text (s ++ pyStrNat ((st.videos.getD []).length + 1) ++ t)]) := by
  refine ⟨?_, ?_, ?_⟩
  · intro h
    refine ⟨?_, ?_, ?_⟩ <;> simp [handle_video, h]
  · intro hs hc
    obtain ⟨vf, hvf⟩ := Option.isSome_iff_exists.mp hs
    cases hcap : msg.caption with
    | none =>
      refine ⟨?_, ?_, ?_⟩ <;> simp [handle_video, hvf, hcap]
    | some dd =>
      have hdd : dd = [] := by
        rw [hcap] at hc
        simpa using hc
      refine ⟨?_, ?_, ?_⟩ <;> simp [handle_video, hvf, hcap, hdd]
  · intro vf d hvf hcap hd
    refine ⟨?_, ?_, ?_⟩
    · simp [handle_video, hvf, hcap, hd]
    · simp [handle_video, hvf, hcap, hd]
    · refine ⟨("✅ Video saved as: ").data ++ sanitize d ++
        ("\nTotal videos collected: ").data,
        ("\nSend more videos or /zip when done").data, ?_⟩
      simp [handle_video, hvf, hcap, hd, savedText, List.append_assoc]

theorem handle_video_contract_witness :
    (handle_video [] 0 ⟨some ⟨("f").data, ("u").data⟩, none, some (("hi").data)⟩
        ⟨some [], []⟩).1.videos =
      some [⟨tempPath [] 0 (("u").data), sanitize (("hi").data)⟩] ∧
    (handle_video [] 0 ⟨some ⟨("f").data, ("u").data⟩, none, some (("hi").data)⟩
        ⟨some [], []⟩).1.fs = [tempPath [] 0 (("u").data)] ∧
    ∃ s t, (handle_video [] 0 ⟨some ⟨("f").data, ("u").data⟩, none, some (("hi").data)⟩
        ⟨some [], []⟩).2 = [Out.text (s ++ pyStrNat 1 ++ t)] :=
  (handle_video_contract [] 0
      ⟨some ⟨("f").data, ("u").data⟩, none, some (("hi").data)⟩ ⟨some [], []⟩).2.2
    ⟨("f").data, ("u").data⟩ (("hi").data) rfl rfl (by decide)

lemma handle_video_valid (tempDir : List Char) (uid : Nat) (m : Message)
    (l : List VideoRecord) (fs : List (List Char)) (hm : validMsg m = true) :
    handle_video tempDir uid m ⟨some l, fs⟩ =
      (⟨some (l ++ [mkRecord tempDir uid m]), (mkRecord tempDir uid m).path :: fs⟩,
       [Out.text (savedText (mkRecord tempDir uid m).name (l.length + 1))]) := by
  rw [validMsg, Bool.and_eq_true] at hm
  obtain ⟨hs, hc⟩ := hm
  obtain ⟨vf, hvf⟩ := Option.isSome_iff_exists.mp hs
  cases hcap : m.caption with
  | none =>
    rw [hcap] at hc
    simp at hc
  | some d =>
    rw [hcap] at hc
    simp only [Option.getD_some, bne_iff_ne, ne_eq] at hc
    simp [handle_video, hvf, hcap, hc, mkRecord]

lemma ingestAll_videos (tempDir : List Char) (uid : Nat) (msgs : List Message) :
    ∀ (l : List VideoRecord) (fs : List (List Char)),
    (∀ m ∈ msgs, validMsg m = true) →
    (ingestAll tempDir uid msgs ⟨some l, fs⟩).videos =
      some (l ++ msgs.map (mkRecord tempDir uid)) := by
  induction msgs with
  | nil =>
    intro l fs _
    simp [ingestAll]
  | cons m ms ih =>
    intro l fs hv
    unfold ingestAll
    rw [List.foldl_cons, handle_video_valid tempDir uid m l fs (hv m (by simp))]
    have := ih (l ++ [mkRecord tempDir uid m]) ((mkRecord tempDir uid m).path :: fs)
      (fun x hx => hv x (by simp [hx]))
    unfold ingestAll at this
    rw [this]
    simp

/-- C2 (counterexample): at `N = 0` the claim fails: ingesting no videos and
then triggering `create_zip` produces no archive at all — the handler
returns early with the "No videos collected yet!" warning and delivers no
document — rather than an archive with `0` entries. -/
theorem ingest_then_zip_counterexample :
    (create_zip [] 0 (ingestAll [] 0 [] ⟨some [], []⟩) ZipOutcome.ok).2 =
      [Out.text warnNoCollected] ∧
    ((create_zip [] 0 (ingestAll [] 0 [] ⟨some [], []⟩) ZipOutcome.ok).2.filter
      isDocOut) = [] := by
  decide

/-- C2 (amended, `N ≥ 1`): ingesting `N ≥ 1` videos with pairwise distinct
(non-empty) captions and then triggering `create_zip` delivers an archive
containing exactly `N` entries — one per ingested video, in order, each
named by the sanitized form of its caption — and afterwards the collection
has size `0` and none of the session's temporary source files remain on
disk. -/
theorem ingest_then_zip (tempDir : List Char) (uid : Nat) (msgs : List Message)
    (fs0 : List (List Char)) (hne : msgs ≠ [])
    (hval : ∀ m ∈ msgs, validMsg m = true)
    (hnodup : (msgs.map (fun m => m.caption.getD [])).Nodup) :
    ∃ fn,
      (create_zip tempDir uid (ingestAll tempDir uid msgs ⟨some [], fs0⟩)
          ZipOutcome.ok).2 =
        [Out.doc (msgs.map (fun m => ((mkRecord tempDir uid m).path,
          sanitize (m.caption.getD [])))) zipCaption fn] ∧
      (create_zip tempDir uid (ingestAll tempDir uid msgs ⟨some [], fs0⟩)
          ZipOutcome.ok).1.videos = some [] ∧
      ∀ m ∈ msgs, (mkRecord tempDir uid m).path ∉
        (create_zip tempDir uid (ingestAll tempDir uid msgs ⟨some [], fs0⟩)
          ZipOutcome.ok).1.fs := by
  obtain ⟨m0, ms, rfl⟩ : ∃ m0 ms, msgs = m0 :: ms := by
    cases msgs with
    | nil => exact absurd rfl hne
    | cons m0 ms => exact ⟨m0, ms, rfl⟩
  have hvids := ingestAll_videos tempDir uid (m0 :: ms) [] fs0 hval
  rw [List.nil_append, List.map_cons] at hvids
  refine ⟨splitExtRoot (mkRecord tempDir uid m0).name ++ (".zip").data, ?_, ?_, ?_⟩
  · simp only [create_zip, hvids]
    rw [show (mkRecord tempDir uid m0 :: ms.map (mkRecord tempDir uid))
      = (m0 :: ms).map (mkRecord tempDir uid) from rfl, List.map_map]
    rfl
  · simp [create_zip, hvids]
  · intro m hm
    simp only [create_zip, hvids]
    refine cleanup_files_removes_paths _ _ _ (mkRecord tempDir uid m) ?_
    rcases List.mem_cons.mp hm with rfl | hmem
    · exact List.mem_cons_self _ _
    · exact List.mem_cons_of_mem _ (List.mem_map_of_mem _ hmem)

theorem ingest_then_zip_witness :
    ∃ fn,
      (create_zip [] 7 (ingestAll [] 7
          [⟨some ⟨("f1").data, ("u1").data⟩, none, some (("a").data)⟩,
           ⟨some ⟨("f2").data, ("u2").data⟩, none, some (("b").data)⟩]
          ⟨some [], []⟩) ZipOutcome.ok).2 =
        [Out.doc ([⟨some ⟨("f1").data, ("u1").data⟩, none, some (("a").data)⟩,
           ⟨some ⟨("f2").data, ("u2").data⟩, none, some (("b").data)⟩].map
          (fun m => ((mkRecord [] 7 m).path, sanitize (m.caption.getD []))))
          zipCaption fn] ∧
      (create_zip [] 7 (ingestAll [] 7
          [⟨some ⟨("f1").data, ("u1").data⟩, none, some (("a").data)⟩,
           ⟨some ⟨("f2").data, ("u2").data⟩, none, some (("b").data)⟩]
          ⟨some [], []⟩) ZipOutcome.ok).1.videos = some [] ∧
      ∀ m ∈ [⟨some ⟨("f1").data, ("u1").data⟩, none, some (("a").data)⟩,
           ⟨some ⟨("f2").data, ("u2").data⟩, none, some (("b").data)⟩],
        (mkRecord [] 7 m).path ∉
          (create_zip [] 7 (ingestAll [] 7
            [⟨some ⟨("f1").data, ("u1").data⟩, none, some (("a").data)⟩,
             ⟨some ⟨("f2").data, ("u2").data⟩, none, some (("b").data)⟩]
            ⟨some [], []⟩) ZipOutcome.ok).1.fs :=
  ingest_then_zip [] 7
    [⟨some ⟨("f1").data, ("u1").data⟩, none, some (("a").data)⟩,
     ⟨some ⟨("f2").data, ("u2").data⟩, none, some (("b").data)⟩]
    [] (by simp) (by decide) (by decide)

end Boty
